import Mathlib

/-!
Verification development for the `tracking-updater` ingestion pipeline.

The Go sources are shallowly embedded as executable Lean definitions:

* `internal/model` (TrackingInfo and its `Validate` method, the Magento
  response shapes);
* `internal/processor/csv.go` (`ProcessFile` dedup/enqueue, `processCSVFile`
  header check + row loop + success policy, `getColumnIndices`, `processRow`);
* `internal/api/magento.go` (the three client operations and the
  `doRequest` retry/backoff loop);
* `internal/file/watcher.go` (`handleEvent`, `isTargetFile`, `isFileReady`,
  `processExistingFiles`).

Effectful pieces (HTTP transport, filesystem stats, CSV reader) are
parameterised by explicit environments recording the outcome of each
external interaction, and the embedding additionally records the observable
calls (remote API calls issued, request bodies sent, sleeps performed) so
that claims about side effects become statements about those traces.
-/

namespace TrackingUpdater

/-- Embeds `model.TrackingInfo` (internal/model): the four fields extracted
from one CSV data row. -/
structure TrackingInfo where
  OrderNumber : String
  TrackingNumber : String
  CarrierCode : String
  Title : String
deriving Repr, DecidableEq

/-- Embeds Go `strings.TrimSpace`: removes leading and trailing whitespace
characters from a string (rendered over the character list so it evaluates). -/
def trimSpace (s : String) : String :=
  String.mk (((s.data.dropWhile Char.isWhitespace).reverse.dropWhile
    Char.isWhitespace).reverse)

/-- Embeds `TrackingInfo.Validate` (internal/model): returns the error for the
first field that is empty after trimming whitespace, in the fixed order
order number, tracking number, carrier code, title; `ok` when all four are
non-empty. -/
def TrackingInfo.Validate (t : TrackingInfo) : Except String Unit :=
  if trimSpace t.OrderNumber = "" then .error "order number is required"
  else if trimSpace t.TrackingNumber = "" then .error "tracking number is required"
  else if trimSpace t.CarrierCode = "" then .error "carrier code is required"
  else if trimSpace t.Title = "" then .error "title is required"
  else .ok ()

/-- Embeds `model.MagentoOrder` (internal/model), restricted to the fields the
pipeline reads. -/
structure MagentoOrder where
  EntityID : Int
  IncrementID : String
deriving Repr, DecidableEq

/-- Embeds `model.MagentoShipment` (internal/model). -/
structure MagentoShipment where
  EntityID : Int
  IncrementID : String
  OrderID : Int
deriving Repr, DecidableEq

/-- Embeds `model.MagentoTrack` (internal/model). -/
structure MagentoTrack where
  OrderID : Int
  ParentID : Int
  TrackNumber : String
  Title : String
  CarrierCode : String
deriving Repr, DecidableEq

/-- Embeds `model.MagentoOrderResponse` (internal/model). -/
structure MagentoOrderResponse where
  Items : List MagentoOrder
  Total : Int
deriving Repr, DecidableEq

/-- Embeds `model.MagentoShipmentResponse` (internal/model). -/
structure MagentoShipmentResponse where
  Items : List MagentoShipment
  Total : Int
deriving Repr, DecidableEq

/-- Observable remote API calls issued while processing one row. -/
inductive ApiCall where
  | getOrder (incrementID : String)
  | getShipments (orderID : Int)
  | addTrack (shipmentID : Int) (track : MagentoTrack)
deriving Repr, DecidableEq

deriving instance DecidableEq for Except

/-- Environment for one row: the outcome of each remote request the row may
issue, at the level just below `doRequest` (`.error` models a transport or
retry-exhaustion failure of the whole request, `.ok` a decoded 2xx
response). -/
structure RowEnv where
  orderResponse : Except String MagentoOrderResponse
  shipmentsResponse : Except String MagentoShipmentResponse
  trackResponse : Except String Unit
deriving Repr, DecidableEq

/-- Embeds `MagentoClient.GetOrderByIncrementID` (internal/api/magento.go):
a failed request propagates as an error; a decoded response with
`total_count` zero or no items is a not-found error; otherwise the first item
is returned. The second component records the remote calls issued. -/
def GetOrderByIncrementID (env : RowEnv) (incrementID : String) :
    Except String MagentoOrder × List ApiCall :=
  match env.orderResponse with
  | .error e => (.error ("failed to get order: " ++ e), [.getOrder incrementID])
  | .ok response =>
    if response.Total == 0 || response.Items.isEmpty then
      (.error ("order with increment_id " ++ incrementID ++ " not found"),
        [.getOrder incrementID])
    else
      (.ok (response.Items.headD ⟨0, ""⟩), [.getOrder incrementID])

/-- Embeds `MagentoClient.GetShipmentsByOrderID` (internal/api/magento.go):
a failed request propagates as an error; a decoded response with
`total_count` zero or no items yields the empty list with *no* error
(magento.go lines 116-119); otherwise the item list is returned. -/
def GetShipmentsByOrderID (env : RowEnv) (orderID : Int) :
    Except String (List MagentoShipment) × List ApiCall :=
  match env.shipmentsResponse with
  | .error e => (.error ("failed to get shipments: " ++ e), [.getShipments orderID])
  | .ok response =>
    if response.Total == 0 || response.Items.isEmpty then
      (.ok [], [.getShipments orderID])
    else
      (.ok response.Items, [.getShipments orderID])

/-- Embeds `MagentoClient.AddTrackingToShipment` (internal/api/magento.go):
sets `ParentID` to the shipment id, then issues the write. -/
def AddTrackingToShipment (env : RowEnv) (shipmentID : Int) (track : MagentoTrack) :
    Except String Unit × List ApiCall :=
  let track := { track with ParentID := shipmentID }
  match env.trackResponse with
  | .error e => (.error ("failed to add tracking: " ++ e), [.addTrack shipmentID track])
  | .ok _ => (.ok (), [.addTrack shipmentID track])

/-- Embeds `columnIndices` (internal/processor/csv.go): positions of the four
required columns, `-1` when absent. -/
structure columnIndices where
  orderNumber : Int
  trackingNumber : Int
  carrierCode : Int
  title : Int
deriving Repr, DecidableEq

/-- Switch body of `getColumnIndices` (internal/processor/csv.go): one header
cell either records its position for the required column it names, or leaves
the indices unchanged. -/
def applyColumn (col : String) (i : Nat) (indices : columnIndices) : columnIndices :=
  if col = "order_number" then { indices with orderNumber := (i : Int) }
  else if col = "tracking_number" then { indices with trackingNumber := (i : Int) }
  else if col = "carrier_code" then { indices with carrierCode := (i : Int) }
  else if col = "title" then { indices with title := (i : Int) }
  else indices

/-- Loop of `getColumnIndices` (internal/processor/csv.go): scans the header
left to right, recording the position of each required column name. -/
def getColumnIndicesAux : List String → Nat → columnIndices → columnIndices
  | [], _, indices => indices
  | col :: rest, i, indices => getColumnIndicesAux rest (i + 1) (applyColumn col i indices)

/-- Embeds `getColumnIndices` (internal/processor/csv.go). -/
def getColumnIndices (header : List String) : columnIndices :=
  getColumnIndicesAux header 0 ⟨-1, -1, -1, -1⟩

/-- Embeds `CSVProcessor.processRow` (internal/processor/csv.go): builds a
`TrackingInfo` from the mapped column indices, validates it, looks up the
order (not found is an error), looks up its shipments, returns success with
no update when there are no shipments, and otherwise appends tracking to the
first shipment of the returned sequence. The second component records the
remote calls issued, in order. -/
def processRow (env : RowEnv) (row : List String) (indices : columnIndices) :
    Except String Unit × List ApiCall :=
  let trackingInfo : TrackingInfo := {
    OrderNumber := row.getD indices.orderNumber.toNat ""
    TrackingNumber := row.getD indices.trackingNumber.toNat ""
    CarrierCode := row.getD indices.carrierCode.toNat ""
    Title := row.getD indices.title.toNat "" }
  match trackingInfo.Validate with
  | .error e => (.error ("invalid tracking info: " ++ e), [])
  | .ok _ =>
    match GetOrderByIncrementID env trackingInfo.OrderNumber with
    | (.error e, calls₁) => (.error ("failed to get order: " ++ e), calls₁)
    | (.ok order, calls₁) =>
      match GetShipmentsByOrderID env order.EntityID with
      | (.error e, calls₂) =>
        (.error ("failed to get shipments: " ++ e), calls₁ ++ calls₂)
      | (.ok shipments, calls₂) =>
        match shipments with
        | [] => (.ok (), calls₁ ++ calls₂)
        | shipment :: _ =>
          let track : MagentoTrack := {
            OrderID := order.EntityID
            ParentID := 0
            TrackNumber := trackingInfo.TrackingNumber
            Title := trackingInfo.Title
            CarrierCode := trackingInfo.CarrierCode }
          match AddTrackingToShipment env shipment.EntityID track with
          | (.error e, calls₃) =>
            (.error ("failed to add tracking: " ++ e), calls₁ ++ calls₂ ++ calls₃)
          | (.ok _, calls₃) => (.ok (), calls₁ ++ calls₂ ++ calls₃)

/-- One data-row read from the CSV reader: either a read error (malformed
row, e.g. a field count different from the header) or a well-formed record
together with the remote responses its processing will observe. -/
inductive CsvRow where
  | readErr : CsvRow
  | fields (row : List String) (env : RowEnv) : CsvRow
deriving Repr, DecidableEq

/-- Row loop of `processCSVFile` (internal/processor/csv.go lines 144-166):
a read error increments `errorCount` only and moves to the next row (the
`continue` runs before `rowCount++`); a well-formed row is processed, an
error outcome increments `errorCount`, and `rowCount` is always incremented.
The remote calls of each processed row are accumulated in order. -/
def processRowsLoop (indices : columnIndices) :
    List CsvRow → Nat → Nat → List ApiCall → Nat × Nat × List ApiCall
  | [], rowCount, errorCount, calls => (rowCount, errorCount, calls)
  | .readErr :: rest, rowCount, errorCount, calls =>
    processRowsLoop indices rest rowCount (errorCount + 1) calls
  | .fields row env :: rest, rowCount, errorCount, calls =>
    match processRow env row indices with
    | (.error _, rowCalls) =>
      processRowsLoop indices rest (rowCount + 1) (errorCount + 1) (calls ++ rowCalls)
    | (.ok _, rowCalls) =>
      processRowsLoop indices rest (rowCount + 1) errorCount (calls ++ rowCalls)

/-- Result of processing one file: the returned success flag, the two
counters, the number of data rows consumed from the reader, and the remote
calls issued. -/
structure FileResult where
  success : Bool
  rowCount : Nat
  errorCount : Nat
  rowsRead : Nat
  calls : List ApiCall
deriving Repr, DecidableEq

/-- Embeds `CSVProcessor.processCSVFile` (internal/processor/csv.go) from the
header check on: if any required column is absent (`-1` index) the file is
rejected with no rows read and no calls; otherwise the row loop runs and the
file succeeds iff `errorCount == 0 ||
float64(errorCount)/float64(rowCount) < 0.05`. The float comparison is
rendered by the exact cross-multiplied comparison `20 * errorCount <
rowCount` (equivalent for `rowCount > 0`; for `rowCount = 0` with errors the
Go comparison is `+Inf < 0.05`, false, and `20 * errorCount < 0` is likewise
false). -/
def processCSVFile (header : List String) (rows : List CsvRow) : FileResult :=
  let indices := getColumnIndices header
  if indices.orderNumber == -1 || indices.trackingNumber == -1 ||
      indices.carrierCode == -1 || indices.title == -1 then
    { success := false, rowCount := 0, errorCount := 0, rowsRead := 0, calls := [] }
  else
    match processRowsLoop indices rows 0 0 [] with
    | (rowCount, errorCount, calls) =>
      { success := errorCount == 0 || decide (20 * errorCount < rowCount)
        rowCount := rowCount
        errorCount := errorCount
        rowsRead := rows.length
        calls := calls }

/-- Embeds the deduplication/queue state of `CSVProcessor`
(internal/processor/csv.go): `processedFiles` is the dispatch ledger (the Go
map rendered as the list of keys recorded so far) and `workChan` the queued
paths in enqueue order. -/
structure CSVProcessorState where
  processedFiles : List String
  workChan : List String
deriving Repr, DecidableEq

/-- Embeds `CSVProcessor.ProcessFile` (internal/processor/csv.go lines
68-80): under the mutex, a path already in the ledger is a silent no-op;
otherwise the path is recorded and enqueued. -/
def ProcessFile (s : CSVProcessorState) (filePath : String) : CSVProcessorState :=
  if s.processedFiles.contains filePath then s
  else { processedFiles := filePath :: s.processedFiles
         workChan := s.workChan ++ [filePath] }

/-- Size and modification time of a file as returned by one `os.Stat`. -/
structure FileStat where
  size : Int
  modTime : Int
deriving Repr, DecidableEq

/-- Embeds `Watcher.isFileReady` (internal/file/watcher.go lines 171-190):
the two arguments are the two stat observations taken one settle interval
(1 second) apart; the file is ready only when both stats succeed and size
and modification time are unchanged. -/
def isFileReady (initialInfo currentInfo : Option FileStat) : Bool :=
  match initialInfo with
  | none => false
  | some initial =>
    match currentInfo with
    | none => false
    | some current =>
      initial.size == current.size && initial.modTime == current.modTime

/-- Environment of one filesystem event as seen by `handleEvent`: whether the
event op intersects Create|Write, the outcome of `isTargetFile`'s stat, the
configured pattern match on the base name, and the two stats taken by
`isFileReady`. -/
structure EventEnv where
  isCreateOrWrite : Bool
  statExists : Bool
  statIsDir : Bool
  patternMatches : Bool
  statInitial : Option FileStat
  statCurrent : Option FileStat
deriving Repr, DecidableEq

/-- Embeds `Watcher.isTargetFile` (internal/file/watcher.go): false when the
stat fails or names a directory, otherwise the configured pattern decides. -/
def isTargetFile (env : EventEnv) : Bool :=
  if !env.statExists || env.statIsDir then false
  else env.patternMatches

/-- Embeds `Watcher.handleEvent` (internal/file/watcher.go lines 114-137):
returns true exactly when `processor.ProcessFile` is invoked for the event's
path. -/
def handleEvent (env : EventEnv) : Bool :=
  if !env.isCreateOrWrite then false
  else if !(isTargetFile env) then false
  else if !(isFileReady env.statInitial env.statCurrent) then false
  else true

/-- True when a base name matches the glob `*.csv` used by
`processExistingFiles`, i.e. the name ends in `.csv`. -/
def globCsvMatch (name : String) : Bool :=
  List.isSuffixOf ".csv".data name.data

/-- One directory entry as observed by the startup sweep: its base name,
whether `isTargetFile`'s stat sees a regular file, and whether `isFileReady`
judges it stable. -/
structure SweepFile where
  name : String
  isRegularFile : Bool
  stable : Bool
deriving Repr, DecidableEq

/-- Embeds `Watcher.processExistingFiles` (internal/file/watcher.go lines
140-155): candidates come from `filepath.Glob(dir + "/*.csv")` (rendered as
the `.csv` suffix filter on base names), and each candidate is emitted when
`isTargetFile` (regular file and configured-pattern match, the pattern being
an abstract predicate on the base name) and `isFileReady` (stable) both
hold. -/
def processExistingFiles (pattern : String → Bool) (files : List SweepFile) :
    List String :=
  ((files.filter (fun f => globCsvMatch f.name)).filter
    (fun f => f.isRegularFile && pattern f.name && f.stable)).map (fun f => f.name)

/-- Outcome of one transport attempt in `doRequest`: an outright transport
error, or an HTTP response with a status code and body. -/
inductive AttemptOutcome where
  | transportErr : AttemptOutcome
  | resp (status : Nat) (body : String) : AttemptOutcome
deriving Repr, DecidableEq

/-- An attempt fails when the transport errors outright or the status is
outside 200-299 (`resp.StatusCode < 200 || resp.StatusCode >= 300`). -/
def AttemptOutcome.fails : AttemptOutcome → Bool
  | .transportErr => true
  | .resp status _ => decide (status < 200) || decide (300 ≤ status)

/-- Final outcome of `doRequest`: a decoded success, a transport-error
failure after the last attempt, an HTTP-status failure after the last
attempt (carrying status and body), or the fallthrough `max retries
exceeded` return. -/
inductive DoFinal where
  | decoded : DoFinal
  | transportFailure (attempts : Nat) : DoFinal
  | apiFailure (status : Nat) (body : String) (attempts : Nat) : DoFinal
  | maxRetriesExceeded : DoFinal
deriving Repr, DecidableEq

/-- Observable result of `doRequest`: its return value, the number of
attempts made, the sleeps performed (durations, in order), and the request
body in place at each attempt. -/
structure DoResult where
  final : DoFinal
  attemptsMade : Nat
  sleeps : List Nat
  bodiesSent : List (Option String)
deriving Repr, DecidableEq

/-- Embeds the retry loop of `MagentoClient.doRequest`
(internal/api/magento.go lines 171-219). `sched k` is the transport outcome
of attempt number `k` (1-based). `fuel` is `maxRetries - attempts`, so the
structural `fuel = 0` case is exactly the loop guard
`attempts < c.maxRetries` failing; every other condition is written as in
the source. Note on the non-2xx retry path the source re-creates `req.Body`
from the bytes just read from the *response* (`body`, line 195, assigned at
line 207), so the model replaces a non-nil request body by the response
body there. -/
def doRequestLoop (sched : Nat → AttemptOutcome) (maxRetries backoff : Nat) :
    Nat → Nat → Option String → List Nat → List (Option String) → DoResult
  | 0, attempts, _, sleeps, bodies =>
    { final := .maxRetriesExceeded, attemptsMade := attempts
      sleeps := sleeps, bodiesSent := bodies }
  | fuel + 1, attempts, reqBody, sleeps, bodies =>
    let attempts := attempts + 1
    let bodies := bodies ++ [reqBody]
    match sched attempts with
    | .transportErr =>
      if attempts < maxRetries then
        doRequestLoop sched maxRetries backoff fuel attempts reqBody
          (sleeps ++ [backoff * attempts]) bodies
      else
        { final := .transportFailure attempts, attemptsMade := attempts
          sleeps := sleeps, bodiesSent := bodies }
    | .resp status respBody =>
      if status < 200 ∨ 300 ≤ status then
        if attempts < maxRetries then
          doRequestLoop sched maxRetries backoff fuel attempts
            (if reqBody.isSome then some respBody else none)
            (sleeps ++ [backoff * attempts]) bodies
        else
          { final := .apiFailure status respBody attempts, attemptsMade := attempts
            sleeps := sleeps, bodiesSent := bodies }
      else
        { final := .decoded, attemptsMade := attempts
          sleeps := sleeps, bodiesSent := bodies }

/-- Embeds `MagentoClient.doRequest` (internal/api/magento.go): runs the
retry loop from zero attempts with the request's initial body. -/
def doRequest (sched : Nat → AttemptOutcome) (maxRetries backoff : Nat)
    (reqBody : Option String) : DoResult :=
  doRequestLoop sched maxRetries backoff maxRetries 0 reqBody [] []

/-- Whether a row read from the reader is well-formed (contributes to
`rowCount`). -/
def isWellFormed : CsvRow → Bool
  | .readErr => false
  | .fields _ _ => true

/-- Whether a row contributes a row error: a read error always does, a
well-formed row exactly when its processing returns an error. -/
def rowIsError (indices : columnIndices) : CsvRow → Bool
  | .readErr => true
  | .fields row env =>
    match processRow env row indices with
    | (.error _, _) => true
    | (.ok _, _) => false

/-- Declarative row count of a file body: the number of well-formed rows. -/
def specRowCount (rows : List CsvRow) : Nat :=
  rows.countP (fun r => isWellFormed r)

/-- Declarative error count of a file body. -/
def specErrorCount (indices : columnIndices) (rows : List CsvRow) : Nat :=
  rows.countP (fun r => rowIsError indices r)

/-- Declarative remote-call trace of a file body, in row order. -/
def rowsCalls (indices : columnIndices) : List CsvRow → List ApiCall
  | [] => []
  | .readErr :: rest => rowsCalls indices rest
  | .fields row env :: rest => (processRow env row indices).2 ++ rowsCalls indices rest

/-- The four-column header in canonical order, for concrete test files. -/
def headerAll : List String :=
  ["order_number", "tracking_number", "carrier_code", "title"]

/-- A row environment in which all three remote operations succeed: one
matching order (entity 7), one shipment (entity 3), and a successful
tracking append. -/
def okEnv : RowEnv where
  orderResponse := .ok { Items := [{ EntityID := 7, IncrementID := "100001" }], Total := 1 }
  shipmentsResponse := .ok { Items := [{ EntityID := 3, IncrementID := "S1", OrderID := 7 }], Total := 1 }
  trackResponse := .ok ()

/-- A well-formed row that processes successfully under `okEnv`. -/
def goodRow : CsvRow := .fields ["100001", "TRK", "ups", "UPS"] okEnv

/-- A well-formed row whose empty order number fails validation. -/
def badRow : CsvRow := .fields ["", "TRK", "ups", "UPS"] okEnv

/-- A file body with `good` successful rows followed by `bad` erroring rows
(all well-formed, so `rowCount = good + bad`, `errorCount = bad`). -/
def fileRows (good bad : Nat) : List CsvRow :=
  List.replicate good goodRow ++ List.replicate bad badRow

end TrackingUpdater

namespace TrackingUpdater

/-- C7: the Validator accepts a record exactly when all four trimmed fields are
non-empty, and on a rejected record the error names the first missing field in
the fixed check order: order number, tracking number, carrier code, title. -/
theorem validate_accepts_iff_and_first_missing (t : TrackingInfo) :
    (t.Validate = .ok () ↔
      (trimSpace t.OrderNumber ≠ "" ∧ trimSpace t.TrackingNumber ≠ "" ∧
       trimSpace t.CarrierCode ≠ "" ∧ trimSpace t.Title ≠ "")) ∧
    (trimSpace t.OrderNumber = "" → t.Validate = .error "order number is required") ∧
    (trimSpace t.OrderNumber ≠ "" → trimSpace t.TrackingNumber = "" →
      t.Validate = .error "tracking number is required") ∧
    (trimSpace t.OrderNumber ≠ "" → trimSpace t.TrackingNumber ≠ "" →
      trimSpace t.CarrierCode = "" → t.Validate = .error "carrier code is required") ∧
    (trimSpace t.OrderNumber ≠ "" → trimSpace t.TrackingNumber ≠ "" →
      trimSpace t.CarrierCode ≠ "" → trimSpace t.Title = "" →
      t.Validate = .error "title is required") := by
  unfold TrackingInfo.Validate
  refine ⟨?_, ?_, ?_, ?_, ?_⟩ <;>
    · split <;> try split <;> try split <;> try split
      all_goals simp_all

/-- Witness for C7: a fully valid record is accepted, and a record with an
empty carrier code (order and tracking present) is rejected naming the
carrier code. -/
theorem validate_accepts_iff_and_first_missing_witness :
    (TrackingInfo.mk "100001" "TRK1" "ups" "UPS").Validate = .ok () ∧
    (TrackingInfo.mk "100001" "TRK1" " " "UPS").Validate =
      .error "carrier code is required" := by
  constructor
  · exact (validate_accepts_iff_and_first_missing
      (TrackingInfo.mk "100001" "TRK1" "ups" "UPS")).1.mpr (by decide)
  · exact (validate_accepts_iff_and_first_missing
      (TrackingInfo.mk "100001" "TRK1" " " "UPS")).2.2.2.1
      (by decide) (by decide) (by decide)

lemma processFile_noop_of_mem (s : CSVProcessorState) (p : String)
    (h : p ∈ s.processedFiles) : ProcessFile s p = s := by
  simp [ProcessFile, h]

lemma processFile_ledger_mono (s : CSVProcessorState) (q p : String)
    (h : p ∈ s.processedFiles) : p ∈ (ProcessFile s q).processedFiles := by
  unfold ProcessFile
  split
  · exact h
  · exact List.mem_cons_of_mem _ h

lemma processFile_chanCount_stable (s : CSVProcessorState) (q p : String)
    (h : p ∈ s.processedFiles) :
    (ProcessFile s q).workChan.count p = s.workChan.count p := by
  unfold ProcessFile
  split
  · rfl
  · next hq =>
    rw [List.count_append]
    have hqp : q ≠ p := by
      intro he
      subst he
      exact hq (List.elem_eq_true_of_mem h)
    simp [List.count_singleton, hqp]

/-- C4: submitting a path to the dispatch queue is idempotent per path for
the process lifetime: once a path has been submitted, any later submit of
the same path (even after arbitrary intervening submissions) is a silent
no-op, so a double submit from a state not yet containing the path leaves
exactly one enqueued task and exactly one ledger entry for the path. -/
theorem processFile_dedup (s : CSVProcessorState) (p : String)
    (hq : s.workChan.count p = 0) (hl : s.processedFiles.count p = 0) :
    (∀ qs : List String,
      ProcessFile (List.foldl ProcessFile (ProcessFile s p) qs) p =
        List.foldl ProcessFile (ProcessFile s p) qs) ∧
    (ProcessFile (ProcessFile s p) p).workChan.count p = 1 ∧
    (ProcessFile (ProcessFile s p) p).processedFiles.count p = 1 := by
  have hnotmem : p ∉ s.processedFiles := by
    intro hmem
    have := List.count_pos_iff.mpr hmem
    omega
  have hfirst : ProcessFile s p =
      { processedFiles := p :: s.processedFiles, workChan := s.workChan ++ [p] } := by
    unfold ProcessFile
    split
    · next hc => exact absurd (List.mem_of_elem_eq_true hc) hnotmem
    · rfl
  have hmem₁ : p ∈ (ProcessFile s p).processedFiles := by
    rw [hfirst]; exact List.mem_cons_self _ _
  refine ⟨?_, ?_, ?_⟩
  · intro qs
    have hmem : ∀ (t : CSVProcessorState) (l : List String), p ∈ t.processedFiles →
        p ∈ (List.foldl ProcessFile t l).processedFiles := by
      intro t l
      induction l generalizing t with
      | nil => exact fun h => h
      | cons q rest ih =>
        intro h
        exact ih _ (processFile_ledger_mono t q p h)
    exact processFile_noop_of_mem _ p (hmem _ qs hmem₁)
  · rw [processFile_noop_of_mem _ p hmem₁, hfirst]
    simp [List.count_append, hq]
  · rw [processFile_noop_of_mem _ p hmem₁, hfirst]
    simp [List.count_cons_self, hl]

/-- Witness for C4: from the empty state, submitting `f.csv` twice enqueues
it once and records it in the ledger once. -/
theorem processFile_dedup_witness :
    (ProcessFile (ProcessFile ⟨[], []⟩ "f.csv") "f.csv").workChan.count "f.csv" = 1 ∧
    (ProcessFile (ProcessFile ⟨[], []⟩ "f.csv") "f.csv").processedFiles.count "f.csv" = 1 := by
  have h := processFile_dedup ⟨[], []⟩ "f.csv" (by simp) (by simp)
  exact ⟨h.2.1, h.2.2⟩

lemma handleEvent_eq (env : EventEnv) :
    handleEvent env = (env.isCreateOrWrite && isTargetFile env &&
      isFileReady env.statInitial env.statCurrent) := by
  unfold handleEvent
  cases h₁ : env.isCreateOrWrite <;> cases h₂ : isTargetFile env <;>
    cases h₃ : isFileReady env.statInitial env.statCurrent <;> simp [h₁, h₂, h₃]

/-- C8: a file whose size or modification time differs between the two stat
observations taken one settle interval apart is never dispatched in that
detection cycle, and a dispatch happens only when both stats succeed with
equal size and modification time. -/
theorem handleEvent_requires_stable (env : EventEnv) :
    (∀ s₁ s₂, env.statInitial = some s₁ → env.statCurrent = some s₂ →
      (s₁.size ≠ s₂.size ∨ s₁.modTime ≠ s₂.modTime) → handleEvent env = false) ∧
    (handleEvent env = true → ∃ s₁ s₂, env.statInitial = some s₁ ∧
      env.statCurrent = some s₂ ∧ s₁.size = s₂.size ∧ s₁.modTime = s₂.modTime) := by
  constructor
  · intro s₁ s₂ h₁ h₂ hne
    rw [handleEvent_eq]
    have hready : isFileReady env.statInitial env.statCurrent = false := by
      rw [h₁, h₂]
      unfold isFileReady
      rcases hne with h | h <;> simp [h]
    simp [hready]
  · intro h
    rw [handleEvent_eq] at h
    have hready : isFileReady env.statInitial env.statCurrent = true := by
      simp only [Bool.and_eq_true] at h
      exact h.2
    cases hI : env.statInitial with
    | none => rw [hI] at hready; simp [isFileReady] at hready
    | some s₁ =>
      cases hC : env.statCurrent with
      | none => rw [hI, hC] at hready; simp [isFileReady] at hready
      | some s₂ =>
        rw [hI, hC] at hready
        unfold isFileReady at hready
        simp only [Bool.and_eq_true, beq_iff_eq] at hready
        exact ⟨s₁, s₂, rfl, rfl, hready.1, hready.2⟩

/-- Witness for C8: a create event on a pattern-matching regular file whose
size grew between the two observations is not dispatched. -/
theorem handleEvent_requires_stable_witness :
    handleEvent ⟨true, true, false, true, some ⟨10, 5⟩, some ⟨12, 5⟩⟩ = false :=
  (handleEvent_requires_stable _).1 ⟨10, 5⟩ ⟨12, 5⟩ rfl rfl (Or.inl (by decide))

lemma applyColumn_orderNumber (col : String) (i : Nat) (indices : columnIndices)
    (h : col ≠ "order_number") :
    (applyColumn col i indices).orderNumber = indices.orderNumber := by
  unfold applyColumn
  split_ifs <;> simp_all

lemma applyColumn_trackingNumber (col : String) (i : Nat) (indices : columnIndices)
    (h : col ≠ "tracking_number") :
    (applyColumn col i indices).trackingNumber = indices.trackingNumber := by
  unfold applyColumn
  split_ifs <;> simp_all

lemma applyColumn_carrierCode (col : String) (i : Nat) (indices : columnIndices)
    (h : col ≠ "carrier_code") :
    (applyColumn col i indices).carrierCode = indices.carrierCode := by
  unfold applyColumn
  split_ifs <;> simp_all

lemma applyColumn_title (col : String) (i : Nat) (indices : columnIndices)
    (h : col ≠ "title") :
    (applyColumn col i indices).title = indices.title := by
  unfold applyColumn
  split_ifs <;> simp_all

lemma gciAux_orderNumber_of_not_mem :
    ∀ (header : List String) (i : Nat) (indices : columnIndices),
    "order_number" ∉ header →
    (getColumnIndicesAux header i indices).orderNumber = indices.orderNumber := by
  intro header
  induction header with
  | nil => intro i indices _; rfl
  | cons col rest ih =>
    intro i indices h
    simp only [List.mem_cons, not_or] at h
    simp only [getColumnIndicesAux]
    rw [ih _ _ h.2, applyColumn_orderNumber _ _ _ (Ne.symm h.1)]

lemma gciAux_trackingNumber_of_not_mem :
    ∀ (header : List String) (i : Nat) (indices : columnIndices),
    "tracking_number" ∉ header →
    (getColumnIndicesAux header i indices).trackingNumber = indices.trackingNumber := by
  intro header
  induction header with
  | nil => intro i indices _; rfl
  | cons col rest ih =>
    intro i indices h
    simp only [List.mem_cons, not_or] at h
    simp only [getColumnIndicesAux]
    rw [ih _ _ h.2, applyColumn_trackingNumber _ _ _ (Ne.symm h.1)]

lemma gciAux_carrierCode_of_not_mem :
    ∀ (header : List String) (i : Nat) (indices : columnIndices),
    "carrier_code" ∉ header →
    (getColumnIndicesAux header i indices).carrierCode = indices.carrierCode := by
  intro header
  induction header with
  | nil => intro i indices _; rfl
  | cons col rest ih =>
    intro i indices h
    simp only [List.mem_cons, not_or] at h
    simp only [getColumnIndicesAux]
    rw [ih _ _ h.2, applyColumn_carrierCode _ _ _ (Ne.symm h.1)]

lemma gciAux_title_of_not_mem :
    ∀ (header : List String) (i : Nat) (indices : columnIndices),
    "title" ∉ header →
    (getColumnIndicesAux header i indices).title = indices.title := by
  intro header
  induction header with
  | nil => intro i indices _; rfl
  | cons col rest ih =>
    intro i indices h
    simp only [List.mem_cons, not_or] at h
    simp only [getColumnIndicesAux]
    rw [ih _ _ h.2, applyColumn_title _ _ _ (Ne.symm h.1)]

/-- C6: a file whose header lacks any of the four required column names
(matched by name, order-independent) is rejected immediately: the file
fails, no data row is read, and no remote call is made, whatever the rows
would have contained. -/
theorem missing_column_rejects_file (header : List String) (rows : List CsvRow)
    (h : "order_number" ∉ header ∨ "tracking_number" ∉ header ∨
         "carrier_code" ∉ header ∨ "title" ∉ header) :
    (processCSVFile header rows).success = false ∧
    (processCSVFile header rows).rowsRead = 0 ∧
    (processCSVFile header rows).calls = [] := by
  have hguard : ((getColumnIndices header).orderNumber == -1 ||
      (getColumnIndices header).trackingNumber == -1 ||
      (getColumnIndices header).carrierCode == -1 ||
      (getColumnIndices header).title == -1) = true := by
    rcases h with h | h | h | h
    · have hx := gciAux_orderNumber_of_not_mem header 0 ⟨-1, -1, -1, -1⟩ h
      simp [getColumnIndices, hx]
    · have hx := gciAux_trackingNumber_of_not_mem header 0 ⟨-1, -1, -1, -1⟩ h
      simp [getColumnIndices, hx]
    · have hx := gciAux_carrierCode_of_not_mem header 0 ⟨-1, -1, -1, -1⟩ h
      simp [getColumnIndices, hx]
    · have hx := gciAux_title_of_not_mem header 0 ⟨-1, -1, -1, -1⟩ h
      simp [getColumnIndices, hx]
  simp [processCSVFile, hguard]

/-- Witness for C6: a file missing the `carrier_code` column is rejected
with zero rows read and zero remote calls, even though a processable row is
present. -/
theorem missing_column_rejects_file_witness :
    (processCSVFile ["order_number", "tracking_number", "title"] [goodRow]).success = false ∧
    (processCSVFile ["order_number", "tracking_number", "title"] [goodRow]).rowsRead = 0 ∧
    (processCSVFile ["order_number", "tracking_number", "title"] [goodRow]).calls = [] :=
  missing_column_rejects_file _ _ (Or.inr (Or.inr (Or.inl (by decide))))

lemma specRowCount_cons_readErr (rest : List CsvRow) :
    specRowCount (.readErr :: rest) = specRowCount rest := by
  simp [specRowCount, List.countP_cons, isWellFormed]

lemma specRowCount_cons_fields (row : List String) (env : RowEnv) (rest : List CsvRow) :
    specRowCount (.fields row env :: rest) = specRowCount rest + 1 := by
  simp [specRowCount, List.countP_cons, isWellFormed]

lemma specErrorCount_cons (indices : columnIndices) (r : CsvRow) (rest : List CsvRow) :
    specErrorCount indices (r :: rest) =
      specErrorCount indices rest + (if rowIsError indices r then 1 else 0) := by
  simp [specErrorCount, List.countP_cons]

lemma processRowsLoop_spec (indices : columnIndices) :
    ∀ (rows : List CsvRow) (rowCount errorCount : Nat) (calls : List ApiCall),
    processRowsLoop indices rows rowCount errorCount calls =
      (rowCount + specRowCount rows, errorCount + specErrorCount indices rows,
        calls ++ rowsCalls indices rows) := by
  intro rows
  induction rows with
  | nil =>
    intro rowCount errorCount calls
    simp [processRowsLoop, specRowCount, specErrorCount, rowsCalls]
  | cons r rest ih =>
    intro rowCount errorCount calls
    cases r with
    | readErr =>
      rw [show processRowsLoop indices (.readErr :: rest) rowCount errorCount calls =
        processRowsLoop indices rest rowCount (errorCount + 1) calls from rfl]
      rw [ih, specRowCount_cons_readErr, specErrorCount_cons,
        show rowsCalls indices (.readErr :: rest) = rowsCalls indices rest from rfl]
      have hre : rowIsError indices .readErr = true := rfl
      simp only [hre, if_true, Prod.mk.injEq]
      refine ⟨?_, ?_, ?_⟩ <;> first | trivial | omega
    | fields row env =>
      rcases hp : processRow env row indices with ⟨res, rowCalls⟩
      have hcalls : rowsCalls indices (.fields row env :: rest) =
          rowCalls ++ rowsCalls indices rest := by
        show (processRow env row indices).2 ++ rowsCalls indices rest = _
        rw [hp]
      cases res with
      | error e =>
        have herr : rowIsError indices (.fields row env) = true := by
          show (match processRow env row indices with
            | (.error _, _) => true
            | (.ok _, _) => false) = true
          rw [hp]
        have hloop : processRowsLoop indices (.fields row env :: rest) rowCount errorCount calls =
            processRowsLoop indices rest (rowCount + 1) (errorCount + 1) (calls ++ rowCalls) := by
          show (match processRow env row indices with
            | (.error _, rc) =>
              processRowsLoop indices rest (rowCount + 1) (errorCount + 1) (calls ++ rc)
            | (.ok _, rc) =>
              processRowsLoop indices rest (rowCount + 1) errorCount (calls ++ rc)) = _
          rw [hp]
        rw [hloop, ih, specRowCount_cons_fields, specErrorCount_cons, herr, hcalls]
        simp only [if_true, Prod.mk.injEq]
        refine ⟨?_, ?_, ?_⟩ <;> first | trivial | omega | simp [List.append_assoc]
      | ok u =>
        have herr : rowIsError indices (.fields row env) = false := by
          show (match processRow env row indices with
            | (.error _, _) => true
            | (.ok _, _) => false) = false
          rw [hp]
        have hloop : processRowsLoop indices (.fields row env :: rest) rowCount errorCount calls =
            processRowsLoop indices rest (rowCount + 1) errorCount (calls ++ rowCalls) := by
          show (match processRow env row indices with
            | (.error _, rc) =>
              processRowsLoop indices rest (rowCount + 1) (errorCount + 1) (calls ++ rc)
            | (.ok _, rc) =>
              processRowsLoop indices rest (rowCount + 1) errorCount (calls ++ rc)) = _
          rw [hp]
        rw [hloop, ih, specRowCount_cons_fields, specErrorCount_cons, herr, hcalls]
        simp only [if_false, Bool.false_eq_true]
        refine ?_
        simp only [Prod.mk.injEq]
        refine ⟨?_, ?_, ?_⟩ <;> first | trivial | omega | simp [List.append_assoc]

lemma processCSVFile_valid (header : List String) (rows : List CsvRow)
    (hguard : ((getColumnIndices header).orderNumber == -1 ||
      (getColumnIndices header).trackingNumber == -1 ||
      (getColumnIndices header).carrierCode == -1 ||
      (getColumnIndices header).title == -1) = false) :
    processCSVFile header rows =
      { success := (specErrorCount (getColumnIndices header) rows == 0 ||
          decide (20 * specErrorCount (getColumnIndices header) rows < specRowCount rows))
        rowCount := specRowCount rows
        errorCount := specErrorCount (getColumnIndices header) rows
        rowsRead := rows.length
        calls := rowsCalls (getColumnIndices header) rows } := by
  simp only [processCSVFile, hguard, Bool.false_eq_true, if_false]
  rw [processRowsLoop_spec]
  simp

/-- C1: with a valid header (all four required columns present, per the
code's own index check), after all rows are consumed the file is judged
successful exactly when `errorCount = 0` or `errorCount / rowCount < 0.05`
(rendered exactly as `20 * errorCount < rowCount`), where `rowCount` counts
the well-formed rows and `errorCount` the row errors; in particular a
100-row file with 4 errors succeeds, a 100-row file with 6 errors fails, and
a file with zero data rows and zero errors succeeds. -/
theorem fileSuccess_policy (header : List String) (rows : List CsvRow)
    (h₁ : (getColumnIndices header).orderNumber ≠ -1)
    (h₂ : (getColumnIndices header).trackingNumber ≠ -1)
    (h₃ : (getColumnIndices header).carrierCode ≠ -1)
    (h₄ : (getColumnIndices header).title ≠ -1) :
    ((processCSVFile header rows).success = true ↔
      ((processCSVFile header rows).errorCount = 0 ∨
        20 * (processCSVFile header rows).errorCount <
          (processCSVFile header rows).rowCount)) ∧
    (processCSVFile header rows).rowCount = specRowCount rows ∧
    (processCSVFile header rows).errorCount =
      specErrorCount (getColumnIndices header) rows ∧
    (processCSVFile headerAll (fileRows 96 4)).success = true ∧
    (processCSVFile headerAll (fileRows 94 6)).success = false ∧
    (processCSVFile headerAll []).success = true := by
  have hguard : ((getColumnIndices header).orderNumber == -1 ||
      (getColumnIndices header).trackingNumber == -1 ||
      (getColumnIndices header).carrierCode == -1 ||
      (getColumnIndices header).title == -1) = false := by
    simp only [Bool.or_eq_false_iff]
    refine ⟨⟨⟨?_, ?_⟩, ?_⟩, ?_⟩ <;> simp [beq_eq_false_iff_ne] <;> assumption
  rw [processCSVFile_valid header rows hguard]
  refine ⟨?_, rfl, rfl, ?_, ?_, ?_⟩
  · simp [Bool.or_eq_true, beq_iff_eq, decide_eq_true_eq]
  · decide
  · decide
  · decide

/-- Witness for C1: the header with all four columns satisfies the validity
hypotheses, and the policy instances follow at that header. -/
theorem fileSuccess_policy_witness :
    (processCSVFile headerAll (fileRows 96 4)).success = true ∧
    (processCSVFile headerAll (fileRows 94 6)).success = false ∧
    (processCSVFile headerAll []).success = true := by
  have h := fileSuccess_policy headerAll [] (by decide) (by decide) (by decide) (by decide)
  exact ⟨h.2.2.2.1, h.2.2.2.2.1, h.2.2.2.2.2⟩

/-- C10: a data row the reader fails to read increments `errorCount` but not
`rowCount` (the loop `continue` runs before `rowCount++`), so the 5%
denominator counts only well-formed rows; consequently a valid-header file
whose data rows all fail to read ends with `rowCount = 0` and
`errorCount` = the number of rows > 0, and is judged failed. -/
theorem read_error_rows_fail_file (header : List String) (rows : List CsvRow)
    (h₁ : (getColumnIndices header).orderNumber ≠ -1)
    (h₂ : (getColumnIndices header).trackingNumber ≠ -1)
    (h₃ : (getColumnIndices header).carrierCode ≠ -1)
    (h₄ : (getColumnIndices header).title ≠ -1)
    (hne : rows ≠ []) (hall : ∀ r ∈ rows, r = .readErr) :
    (∀ rest : List CsvRow, specRowCount (.readErr :: rest) = specRowCount rest ∧
      specErrorCount (getColumnIndices header) (.readErr :: rest) =
        specErrorCount (getColumnIndices header) rest + 1) ∧
    (processCSVFile header rows).rowCount = 0 ∧
    (processCSVFile header rows).errorCount = rows.length ∧
    0 < (processCSVFile header rows).errorCount ∧
    (processCSVFile header rows).success = false := by
  have hguard : ((getColumnIndices header).orderNumber == -1 ||
      (getColumnIndices header).trackingNumber == -1 ||
      (getColumnIndices header).carrierCode == -1 ||
      (getColumnIndices header).title == -1) = false := by
    simp only [Bool.or_eq_false_iff]
    refine ⟨⟨⟨?_, ?_⟩, ?_⟩, ?_⟩ <;> simp [beq_eq_false_iff_ne] <;> assumption
  have hrc : specRowCount rows = 0 := by
    rw [specRowCount, List.countP_eq_zero]
    intro r hr
    rw [hall r hr]
    simp [isWellFormed]
  have hec : specErrorCount (getColumnIndices header) rows = rows.length := by
    rw [specErrorCount, List.countP_eq_length]
    intro r hr
    rw [hall r hr]
    rfl
  have hlen : 0 < rows.length := by
    cases rows with
    | nil => exact absurd rfl hne
    | cons r rest => simp
  rw [processCSVFile_valid header rows hguard]
  refine ⟨?_, ?_, ?_, ?_, ?_⟩
  · intro rest
    exact ⟨specRowCount_cons_readErr rest, by
      rw [specErrorCount_cons]
      rfl⟩
  · exact hrc
  · exact hec
  · simpa [hec] using hlen
  · simp only [hrc, hec]
    have h0 : (rows.length == 0) = false := by
      simp only [beq_eq_false_iff_ne, ne_eq]
      omega
    have h20 : decide (20 * rows.length < 0) = false := by
      simp
    simp [h0, h20]

/-- Witness for C10: a valid-header file with two unreadable rows has
rowCount 0, errorCount 2 and fails. -/
theorem read_error_rows_fail_file_witness :
    (processCSVFile headerAll [.readErr, .readErr]).rowCount = 0 ∧
    (processCSVFile headerAll [.readErr, .readErr]).errorCount = 2 ∧
    (processCSVFile headerAll [.readErr, .readErr]).success = false := by
  have h := read_error_rows_fail_file headerAll [.readErr, .readErr]
    (by decide) (by decide) (by decide) (by decide) (by decide) (by decide)
  exact ⟨h.2.1, by simpa using h.2.2.1, h.2.2.2.2⟩

/-- C5: for every row that passes validation, the orchestration first looks
up the order by the row's order number (the call trace begins with that
lookup); a not-found order (empty result) makes the row an error; an order
found but with no shipments makes the row a successful skip issuing no
tracking update; and when shipments exist, tracking is appended to exactly
the first shipment of the returned sequence. -/
theorem processRow_orchestration (env : RowEnv) (row : List String)
    (indices : columnIndices)
    (hvalid : (TrackingInfo.mk (row.getD indices.orderNumber.toNat "")
        (row.getD indices.trackingNumber.toNat "")
        (row.getD indices.carrierCode.toNat "")
        (row.getD indices.title.toNat "")).Validate = .ok ()) :
    ((processRow env row indices).2.head? =
      some (.getOrder (row.getD indices.orderNumber.toNat ""))) ∧
    (∀ oResp, env.orderResponse = .ok oResp →
      (oResp.Total = 0 ∨ oResp.Items = []) →
      ∃ e, (processRow env row indices).1 = .error e) ∧
    (∀ oResp order oRest sResp,
      env.orderResponse = .ok oResp → oResp.Items = order :: oRest →
      oResp.Total ≠ 0 →
      env.shipmentsResponse = .ok sResp →
      (sResp.Total = 0 ∨ sResp.Items = []) →
      (processRow env row indices).1 = .ok () ∧
      ∀ sid t, ApiCall.addTrack sid t ∉ (processRow env row indices).2) ∧
    (∀ oResp order oRest sResp ship sRest,
      env.orderResponse = .ok oResp → oResp.Items = order :: oRest →
      oResp.Total ≠ 0 →
      env.shipmentsResponse = .ok sResp → sResp.Items = ship :: sRest →
      sResp.Total ≠ 0 →
      (processRow env row indices).2 =
        [.getOrder (row.getD indices.orderNumber.toNat ""),
         .getShipments order.EntityID,
         .addTrack ship.EntityID
           { OrderID := order.EntityID
             ParentID := ship.EntityID
             TrackNumber := row.getD indices.trackingNumber.toNat ""
             Title := row.getD indices.title.toNat ""
             CarrierCode := row.getD indices.carrierCode.toNat "" }]) := by
  simp only [List.getD_eq_getElem?_getD] at hvalid
  refine ⟨?_, ?_, ?_, ?_⟩
  · rcases hO : env.orderResponse with eO | oResp
    · simp [processRow, hvalid, GetOrderByIncrementID, hO]
    · by_cases hc : (oResp.Total == 0 || oResp.Items.isEmpty) = true
      · simp [processRow, hvalid, GetOrderByIncrementID, hO, hc]
      · rcases hS : env.shipmentsResponse with eS | sResp
        · simp [processRow, hvalid, GetOrderByIncrementID, GetShipmentsByOrderID,
            hO, hS, hc]
        · by_cases hcs : (sResp.Total == 0 || sResp.Items.isEmpty) = true
          · simp [processRow, hvalid, GetOrderByIncrementID, GetShipmentsByOrderID,
              hO, hS, hc, hcs]
          · rcases hI : sResp.Items with _ | ⟨ship, sRest⟩
            · rw [hI] at hcs
              simp at hcs
            · have hTot : ¬ sResp.Total = 0 := by
                intro h
                exact hcs (by simp [h])
              rcases hT : env.trackResponse with eT | uT <;>
                simp [processRow, hvalid, GetOrderByIncrementID,
                  GetShipmentsByOrderID, AddTrackingToShipment,
                  hO, hS, hc, hcs, hI, hT, hTot]
  · intro oResp hO hempty
    have hc : (oResp.Total == 0 || oResp.Items.isEmpty) = true := by
      rcases hempty with h | h <;> simp [h]
    simp [processRow, hvalid, GetOrderByIncrementID, hO, hc]
  · intro oResp order oRest sResp hO hItems hTotal hS hempty
    have hc : (oResp.Total == 0 || oResp.Items.isEmpty) = false := by
      simp [hItems, hTotal]
    have hcs : (sResp.Total == 0 || sResp.Items.isEmpty) = true := by
      rcases hempty with h | h <;> simp [h]
    constructor
    · simp [processRow, hvalid, GetOrderByIncrementID, GetShipmentsByOrderID,
        hO, hItems, hc, hcs, hS, hTotal]
    · intro sid t
      simp [processRow, hvalid, GetOrderByIncrementID, GetShipmentsByOrderID,
        hO, hItems, hc, hcs, hS, hTotal]
  · intro oResp order oRest sResp ship sRest hO hItems hTotal hS hSItems hSTotal
    have hc : (oResp.Total == 0 || oResp.Items.isEmpty) = false := by
      simp [hItems, hTotal]
    have hcs : (sResp.Total == 0 || sResp.Items.isEmpty) = false := by
      simp [hSItems, hSTotal]
    rcases hT : env.trackResponse with eT | uT <;>
      simp [processRow, hvalid, GetOrderByIncrementID, GetShipmentsByOrderID,
        AddTrackingToShipment, hO, hItems, hc, hcs, hS, hSItems, hT, hTotal, hSTotal]

/-- Witness for C5: a concrete valid row under `okEnv` issues exactly the
order lookup, the shipment lookup for order 7, and one append to shipment 3. -/
theorem processRow_orchestration_witness :
    (processRow okEnv ["100001", "TRK", "ups", "UPS"] ⟨0, 1, 2, 3⟩).2 =
      [.getOrder "100001", .getShipments 7,
       .addTrack 3 ⟨7, 3, "TRK", "UPS", "ups"⟩] := by
  exact (processRow_orchestration okEnv ["100001", "TRK", "ups", "UPS"] ⟨0, 1, 2, 3⟩
    (by decide)).2.2.2
    { Items := [{ EntityID := 7, IncrementID := "100001" }], Total := 1 }
    { EntityID := 7, IncrementID := "100001" } []
    { Items := [{ EntityID := 3, IncrementID := "S1", OrderID := 7 }], Total := 1 }
    { EntityID := 3, IncrementID := "S1", OrderID := 7 } []
    rfl rfl (by decide) rfl rfl (by decide)

lemma fails_true_elim (o : AttemptOutcome) (h : o.fails = true) :
    o = .transportErr ∨
      ∃ status body, o = .resp status body ∧ (status < 200 ∨ 300 ≤ status) := by
  cases o with
  | transportErr => exact Or.inl rfl
  | resp status body =>
    refine Or.inr ⟨status, body, rfl, ?_⟩
    simpa [AttemptOutcome.fails] using h

lemma doRequestLoop_all_fail (sched : Nat → AttemptOutcome)
    (maxRetries backoff : Nat)
    (hfail : ∀ k, 1 ≤ k → k ≤ maxRetries → (sched k).fails = true) :
    ∀ (fuel attempts : Nat), attempts + fuel = maxRetries → 0 < fuel →
    ∀ (reqBody : Option String) (sleeps : List Nat) (bodies : List (Option String)),
    (doRequestLoop sched maxRetries backoff fuel attempts reqBody sleeps bodies).attemptsMade
        = maxRetries ∧
    (doRequestLoop sched maxRetries backoff fuel attempts reqBody sleeps bodies).sleeps
        = sleeps ++ (List.range' (attempts + 1) (fuel - 1)).map (fun k => backoff * k) ∧
    ((doRequestLoop sched maxRetries backoff fuel attempts reqBody sleeps bodies).final
        = .transportFailure maxRetries ∨
      ∃ status body,
        (doRequestLoop sched maxRetries backoff fuel attempts reqBody sleeps bodies).final
          = .apiFailure status body maxRetries) := by
  intro fuel
  induction fuel with
  | zero =>
    intro attempts hinv h0
    exact absurd h0 (by omega)
  | succ n ih =>
    intro attempts hinv h0 reqBody sleeps bodies
    have hk : (sched (attempts + 1)).fails = true := hfail _ (by omega) (by omega)
    rcases Nat.eq_zero_or_pos n with hn | hn
    · subst hn
      have hstop : ¬ attempts + 1 < maxRetries := by omega
      have hlast : attempts + 1 = maxRetries := by omega
      rcases fails_true_elim _ hk with he | ⟨status, body, he, hrange⟩
      · simp only [doRequestLoop, he]
        rw [if_neg hstop]
        refine ⟨hlast, by simp, Or.inl (by rw [hlast])⟩
      · simp only [doRequestLoop, he]
        rw [if_pos hrange, if_neg hstop]
        exact ⟨hlast, by simp, Or.inr ⟨status, body, by rw [hlast]⟩⟩
    · have hgo : attempts + 1 < maxRetries := by omega
      have hr : List.range' (attempts + 1) n =
          (attempts + 1) :: List.range' (attempts + 1 + 1) (n - 1) := by
        obtain ⟨m, rfl⟩ : ∃ m, n = m + 1 := ⟨n - 1, by omega⟩
        rfl
      rcases fails_true_elim _ hk with he | ⟨status, body, he, hrange⟩
      · simp only [doRequestLoop, he]
        rw [if_pos hgo]
        obtain ⟨ih₁, ih₂, ih₃⟩ := ih (attempts + 1) (by omega) hn
          reqBody (sleeps ++ [backoff * (attempts + 1)]) (bodies ++ [reqBody])
        refine ⟨ih₁, ?_, ih₃⟩
        rw [ih₂]
        simp [hr, List.append_assoc]
      · simp only [doRequestLoop, he]
        rw [if_pos hrange, if_pos hgo]
        obtain ⟨ih₁, ih₂, ih₃⟩ := ih (attempts + 1) (by omega) hn
          (if reqBody.isSome then some body else none)
          (sleeps ++ [backoff * (attempts + 1)]) (bodies ++ [reqBody])
        refine ⟨ih₁, ?_, ih₃⟩
        rw [ih₂]
        simp [hr, List.append_assoc]

lemma doRequestLoop_first_success (sched : Nat → AttemptOutcome)
    (maxRetries backoff : Nat) (k : Nat) (hk : k ≤ maxRetries)
    (hsucc : (sched k).fails = false)
    (hbefore : ∀ j, 1 ≤ j → j < k → (sched j).fails = true) :
    ∀ (fuel attempts : Nat), attempts + fuel = maxRetries → attempts < k →
    ∀ (reqBody : Option String) (sleeps : List Nat) (bodies : List (Option String)),
    (doRequestLoop sched maxRetries backoff fuel attempts reqBody sleeps bodies).final
        = .decoded ∧
    (doRequestLoop sched maxRetries backoff fuel attempts reqBody sleeps bodies).attemptsMade
        = k := by
  intro fuel
  induction fuel with
  | zero =>
    intro attempts hinv hlt
    exact absurd hlt (by omega)
  | succ n ih =>
    intro attempts hinv hlt reqBody sleeps bodies
    by_cases hak : attempts + 1 = k
    · have hsk : (sched (attempts + 1)).fails = false := by rw [hak]; exact hsucc
      cases ho : sched (attempts + 1) with
      | transportErr =>
        rw [ho] at hsk
        exact absurd hsk (by simp [AttemptOutcome.fails])
      | resp status body =>
        rw [ho] at hsk
        have hin : ¬ (status < 200 ∨ 300 ≤ status) := by
          simpa [AttemptOutcome.fails, not_or] using hsk
        simp only [doRequestLoop, ho]
        rw [if_neg hin]
        exact ⟨rfl, hak⟩
    · have hfj : (sched (attempts + 1)).fails = true := hbefore _ (by omega) (by omega)
      have hgo : attempts + 1 < maxRetries := by omega
      rcases fails_true_elim _ hfj with he | ⟨status, body, he, hrange⟩
      · simp only [doRequestLoop, he]
        rw [if_pos hgo]
        exact ih (attempts + 1) (by omega) (by omega) reqBody _ _
      · simp only [doRequestLoop, he]
        rw [if_pos hrange, if_pos hgo]
        exact ih (attempts + 1) (by omega) (by omega) _ _ _

/-- C2: with at least one attempt configured, (a) if the transport fails or
the status is out of the 200-299 range on every attempt, the client makes
exactly `maxRetries` attempts, sleeps `backoff * k` after each non-final
attempt `k` (so `backoff, 2*backoff, ..., (maxRetries-1)*backoff`), and
returns a failure (transport or HTTP-status with the attempt count); and
(b) if attempt `k` succeeds after `k-1` failures, the decoded result is
returned with exactly `k` attempts made and no further attempt. -/
theorem doRequest_retry_policy (sched : Nat → AttemptOutcome)
    (maxRetries backoff : Nat) (reqBody : Option String) (hpos : 0 < maxRetries) :
    ((∀ k, 1 ≤ k → k ≤ maxRetries → (sched k).fails = true) →
      (doRequest sched maxRetries backoff reqBody).attemptsMade = maxRetries ∧
      (doRequest sched maxRetries backoff reqBody).sleeps =
        (List.range' 1 (maxRetries - 1)).map (fun k => backoff * k) ∧
      ((doRequest sched maxRetries backoff reqBody).final =
          .transportFailure maxRetries ∨
        ∃ status body, (doRequest sched maxRetries backoff reqBody).final =
          .apiFailure status body maxRetries)) ∧
    (∀ k, 1 ≤ k → k ≤ maxRetries → (sched k).fails = false →
      (∀ j, 1 ≤ j → j < k → (sched j).fails = true) →
      (doRequest sched maxRetries backoff reqBody).final = .decoded ∧
      (doRequest sched maxRetries backoff reqBody).attemptsMade = k) := by
  constructor
  · intro hfail
    have h := doRequestLoop_all_fail sched maxRetries backoff hfail maxRetries 0
      (by omega) hpos reqBody [] []
    simpa [doRequest] using h
  · intro k hk1 hk2 hsucc hbefore
    have h := doRequestLoop_first_success sched maxRetries backoff k hk2 hsucc hbefore
      maxRetries 0 (by omega) (by omega) reqBody [] []
    simpa [doRequest] using h

/-- Witness for C2: with 3 configured attempts and backoff unit 2, a
permanently failing transport yields 3 attempts, sleeps `[2, 4]`, and a
transport failure; a schedule succeeding on attempt 2 yields a decoded
result after exactly 2 attempts. -/
theorem doRequest_retry_policy_witness :
    (doRequest (fun _ => .transportErr) 3 2 none).attemptsMade = 3 ∧
    (doRequest (fun _ => .transportErr) 3 2 none).sleeps = [2, 4] ∧
    (doRequest (fun k => if k = 2 then .resp 200 "ok" else .resp 500 "err")
      3 2 none).final = .decoded ∧
    (doRequest (fun k => if k = 2 then .resp 200 "ok" else .resp 500 "err")
      3 2 none).attemptsMade = 2 := by
  have h₁ := (doRequest_retry_policy (fun _ => .transportErr) 3 2 none
    (by omega)).1 (fun k _ _ => rfl)
  have h₂ := (doRequest_retry_policy
    (fun k => if k = 2 then .resp 200 "ok" else .resp 500 "err") 3 2 none
    (by omega)).2 2 (by omega) (by omega) (by decide)
    (by
      intro j hj1 hj2
      have hj : j = 1 := by omega
      subst hj
      decide)
  exact ⟨h₁.1, h₁.2.1.trans (by decide), h₂.1, h₂.2⟩

/-- C3 (code bug): the non-2xx retry path rebuilds `req.Body` from the bytes
read from the previous *response* (magento.go line 207 uses `body` from line
195), not the original request body; with maxRetries = 2, a request with
body `B` whose first attempt returns status 500 with response body `R`
issues its second attempt with request body `R`, not `B`. -/
theorem retry_body_replaced_by_response_body :
    (doRequest (fun _ => .resp 500 "R") 2 1 (some "B")).bodiesSent =
      [some "B", some "R"] ∧
    (doRequest (fun _ => .resp 500 "R") 2 1 (some "B")).bodiesSent ≠
      [some "B", some "B"] := by decide

/-- C9 (counterexample): with a configured pattern matching the name
`a.txt`, a stable regular file `a.txt` present in the directory at startup
matches the pattern, is a stable regular file, and yet is not emitted by the
startup sweep, because the sweep only enumerates `*.csv` names. -/
theorem startup_sweep_misses_non_csv :
    (fun n => n == "a.txt") "a.txt" = true ∧
    (SweepFile.mk "a.txt" true true).isRegularFile = true ∧
    (SweepFile.mk "a.txt" true true).stable = true ∧
    processExistingFiles (fun n => n == "a.txt") [SweepFile.mk "a.txt" true true]
      = [] := by
  refine ⟨by decide, rfl, rfl, by decide⟩

/-- C9 (amended): on first start the sweep emits exactly the present files
whose base name ends in `.csv` (the hard-coded glob) and which are stable
regular files matching the configured pattern; with distinct names in the
directory, each such file is emitted at most once. Pattern-matching files
whose names do not end in `.csv` are not swept. -/
theorem startup_sweep_emits_csv_matches (pattern : String → Bool)
    (files : List SweepFile) :
    (∀ p, p ∈ processExistingFiles pattern files ↔
      ∃ f, f ∈ files ∧ f.name = p ∧ globCsvMatch p = true ∧
        f.isRegularFile = true ∧ pattern p = true ∧ f.stable = true) ∧
    ((files.map SweepFile.name).Nodup →
      ∀ p, (processExistingFiles pattern files).count p ≤ 1) := by
  constructor
  · intro p
    simp only [processExistingFiles, List.mem_map, List.mem_filter]
    constructor
    · rintro ⟨f, ⟨⟨hf, hcsv⟩, hfilter⟩, rfl⟩
      simp only [Bool.and_eq_true] at hfilter
      exact ⟨f, hf, rfl, hcsv, hfilter.1.1, hfilter.1.2, hfilter.2⟩
    · rintro ⟨f, hf, rfl, hcsv, hreg, hpat, hstable⟩
      exact ⟨f, ⟨⟨hf, hcsv⟩, by simp [hreg, hpat, hstable]⟩, rfl⟩
  · intro hnodup p
    have hsub : List.Sublist
        (((files.filter (fun f => globCsvMatch f.name)).filter
          (fun f => f.isRegularFile && pattern f.name && f.stable)).map
            (fun f => f.name))
        (files.map (fun f => f.name)) :=
      ((List.filter_sublist _).trans (List.filter_sublist _)).map _
    exact le_trans (hsub.count_le p) (List.nodup_iff_count_le_one.mp hnodup p)

/-- Witness for C9 (amended): a stable regular `.csv` file matching the
pattern is emitted by the sweep, and with distinct names it is emitted at
most once. -/
theorem startup_sweep_emits_csv_matches_witness :
    "20240101_120000.csv" ∈ processExistingFiles
      (fun n => n == "20240101_120000.csv")
      [SweepFile.mk "20240101_120000.csv" true true] ∧
    (processExistingFiles (fun n => n == "20240101_120000.csv")
      [SweepFile.mk "20240101_120000.csv" true true]).count
        "20240101_120000.csv" ≤ 1 := by
  have h := startup_sweep_emits_csv_matches
    (fun n => n == "20240101_120000.csv")
    [SweepFile.mk "20240101_120000.csv" true true]
  refine ⟨(h.1 _).mpr ⟨SweepFile.mk "20240101_120000.csv" true true,
    by simp, rfl, by decide, rfl, by decide, rfl⟩, h.2 (by simp) _⟩

end TrackingUpdater
